import Mathlib

/-!
Shallow embedding of the batched image-analysis pipeline of the
stock-keyword-generator frontend (`ImageAnalysis.jsx`), of the video frame
extractor (`VideoAnalysis`, `extractFramesFromVideo`), and of the shared CSV
download utility (`downloadCSV`), together with theorems settling the frozen
claims about them.

Conventions: JS work-item objects become the `Item` structure (only the fields
the claims touch); React `setState(prev => ...)` updates become functions
`List Item → List Item`; fetch responses and thrown exceptions become explicit
event values consumed by the scheduler; JS numbers used for media geometry and
timestamps become `ℚ`.
-/

namespace StockKG

/-- Work-item lifecycle status, from the status strings
'pending' / 'processing' / 'completed' / 'error' used in `ImageAnalysis.jsx`. -/
inductive Status
  | pending
  | processing
  | completed
  | error
  deriving DecidableEq, Repr

/-- The structured result stored on a completed item
(`{title, keywords, category, releases, raw_response}`). -/
structure Res where
  title : String
  keywords : List String
  category : String
  releases : String
  raw_response : String
  deriving DecidableEq, Repr

/-- A work item of the upload table: the fields of the uploaded-image objects
that the analysis lifecycle reads or writes (`id`, `name`, `status`,
`result`, `error`). -/
structure Item where
  id : Nat
  name : String
  status : Status
  result : Option Res
  error : Option String
  deriving DecidableEq, Repr

/-- One provider outcome inside a response's results array:
`{success: true, title, ...}` or `{success: false, error}`. -/
inductive ROutcome
  | success (r : Res)
  | failure (e : String)
  deriving DecidableEq, Repr

/-- An `AnalysisResultRecord` pushed into the shared `AppContext` results list
(success records carry the structured result, failure records the error). -/
structure ResultRecord where
  id : Nat
  filename : String
  outcome : ROutcome
  deriving DecidableEq, Repr

/-- `analyzeImage`: the update marking the item as in flight,
`{ ...img, status: 'processing', error: null }`.  Note it does not touch
`result`. -/
def toProcessing (img : Item) : Item :=
  { img with status := .processing, error := none }

/-- `analyzeImage` success branch on the matched item:
`{ ...img, status: 'completed', result: {...} }`. -/
def toCompleted (r : Res) (img : Item) : Item :=
  { img with status := .completed, result := some r }

/-- `analyzeImage` failure branches on the matched item:
`{ ...img, status: 'error', error: e }`. -/
def toError (e : String) (img : Item) : Item :=
  { img with status := .error, error := some e }

/-- The single-item response handling of `analyzeImage`: takes
`data.results` (absent or an array) and produces the item update.
`data.results && data.results.length > 0` picks `results[0]`; otherwise the
item errors with 'No results received'. -/
def analyzeImageOutcome (resp : Option (List ROutcome)) (img : Item) : Item :=
  match resp with
  | some (ROutcome.success r :: _) => toCompleted r img
  | some (ROutcome.failure e :: _) => toError e img
  | _ => toError "No results received" img

/-- `setImageData({results: [...state.imageAnalysis.results, ...newResults]})`
combined with the `SET_IMAGE_DATA` reducer case, which overwrites
`imageAnalysis.results` with the payload: the shared store merge is a plain
append. -/
def mergeResults (shared newRecs : List ResultRecord) : List ResultRecord :=
  shared ++ newRecs

/-- `processImageChunk` first update: every store item whose id occurs in the
chunk becomes `{ ...img, status: 'processing', error: null }`
(`chunk.some(chunkImg => chunkImg.id === img.id)`). -/
def setChunkProcessing (chunk : List Item) (store : List Item) : List Item :=
  store.map fun img =>
    if chunk.any fun c => c.id == img.id then
      { img with status := .processing, error := none }
    else img

/-- Per-item update computed by `processImageChunk` from a successful batch
response: `data.results[filename]` looked up by display name; a leading
successful outcome completes the item, a leading failure errors it, and a
missing or empty entry errors it with 'No results received'. -/
def chunkItemUpdate (results : List (String × List ROutcome)) (img : Item) : Item :=
  match results.lookup img.name with
  | some (ROutcome.success r :: _) => { img with status := .completed, result := some r }
  | some (ROutcome.failure e :: _) => { img with status := .error, error := some e }
  | _ => { img with status := .error, error := some "No results received" }

/-- The `AnalysisResultRecord` pushed onto `newResults` for a chunk item, one
per item in every branch of the response handling. -/
def chunkItemRecord (results : List (String × List ROutcome)) (img : Item) : ResultRecord :=
  match results.lookup img.name with
  | some (ROutcome.success r :: _) => ⟨img.id, img.name, .success r⟩
  | some (ROutcome.failure e :: _) => ⟨img.id, img.name, .failure e⟩
  | _ => ⟨img.id, img.name, .failure "No results received"⟩

/-- `prev.map(img => updatedImages.find(u => u.id === img.id) || img)`. -/
def applyUpdated (updatedImages : List Item) (store : List Item) : List Item :=
  store.map fun img => ((updatedImages.find? fun u => u.id == img.id).getD img)

/-- JS `a || b` on an optional string: `b` when the string is absent or empty
(falsy), the string itself otherwise. -/
def jsOr (s : Option String) (d : String) : String :=
  match s with
  | some e => if e = "" then d else e
  | none => d

/-- `processImageChunk` chunk-level failure branch: items of the chunk still
`processing` become `error` with `data.error || 'Analysis failed'`. -/
def applyChunkFail (emsg : Option String) (chunk : List Item) (store : List Item) : List Item :=
  store.map fun img =>
    if (chunk.any fun c => c.id == img.id) ∧ img.status = .processing then
      { img with status := .error, error := some (jsOr emsg "Analysis failed") }
    else img

/-- The parsed body of one `/api/analyze-images-batch` response:
`ok` models `data.success && data.results` (results keyed by filename),
`failed` models everything else, carrying `data.error`. -/
inductive BatchResp
  | ok (results : List (String × List ROutcome))
  | failed (error : Option String)
  deriving Repr

/-- What one loop iteration of the scheduler observes: a parsed response, or
the fetch / JSON parse throwing. -/
inductive ChunkEvent
  | resp (r : BatchResp)
  | exn (msg : String)
  deriving Repr

/-- The mutable state the scheduler touches: the upload-table items
(`imagesWithStatus`) and the shared `AppContext` results list. -/
structure Store where
  items : List Item
  shared : List ResultRecord
  deriving DecidableEq, Repr

/-- `processImageChunk`: mark the chunk processing, then consume the chunk's
event.  Returns the updated store and the thrown message when the fetch or
parse threw (in which case only the processing marks were applied). -/
def processImageChunk (chunk : List Item) (ev : ChunkEvent) (st : Store) :
    Store × Option String :=
  let items1 := setChunkProcessing chunk st.items
  match ev with
  | .exn m => ({ st with items := items1 }, some m)
  | .resp (.ok results) =>
      let updatedImages := chunk.map (chunkItemUpdate results)
      let newResults := chunk.map (chunkItemRecord results)
      ({ items := applyUpdated updatedImages items1,
         shared := if newResults.isEmpty then st.shared else mergeResults st.shared newResults },
       none)
  | .resp (.failed e) =>
      ({ st with items := applyChunkFail e chunk items1 }, none)

/-- `img.status === 'pending' || img.status === 'error'`: the filter of
`analyzeAllImages` selecting retryable work. -/
def eligible (img : Item) : Bool :=
  img.status == .pending || img.status == .error

/-- The fixed chunk size of `analyzeAllImages` (`const chunkSize = 2`). -/
def chunkSize : Nat := 2

/-- The loop indices of `for (let i = 0; i < N; i += chunkSize)`. -/
def chunkStarts (n : Nat) : List Nat :=
  (List.range n).filter fun i => i % chunkSize == 0

/-- The chunks produced by `imagesToProcess.slice(i, i + chunkSize)` at each
loop index. -/
def selChunks (sel : List Item) : List (List Item) :=
  (chunkStarts sel.length).map fun i => (sel.drop i).take chunkSize

/-- The values `Math.floor(i / chunkSize) + 1` assigned to
`chunkProgress.currentChunk`, in loop order. -/
def chunkNumbers (n : Nat) : List Nat :=
  (chunkStarts n).map fun i => i / chunkSize + 1

/-- The chunk loop of `analyzeAllImages`: process each chunk in order with its
event; a thrown chunk aborts the loop.  Returns the store, the aborting
message if any, and the number of network calls performed. -/
def runChunks (env : Nat → ChunkEvent) :
    List (List Item) → Nat → Store → Store × Option String × Nat
  | [], _, st => (st, none, 0)
  | chunk :: rest, k, st =>
      let p := processImageChunk chunk (env k) st
      match p.2 with
      | some m => (p.1, some m, 1)
      | none =>
          let r := runChunks env rest (k + 1) p.1
          (r.1, r.2.1, r.2.2 + 1)

/-- The catch handler of `analyzeAllImages`, per item: an item still
`processing` becomes `error` with the exception's message. -/
def markAbortedItem (m : String) (img : Item) : Item :=
  if img.status = .processing then { img with status := .error, error := some m }
  else img

/-- The catch handler of `analyzeAllImages` over the whole store. -/
def markAborted (m : String) (items : List Item) : List Item :=
  items.map (markAbortedItem m)

/-- The observable outcome of one `analyzeAllImages` run: final store, number
of batch requests sent, and whether the 'No images to analyze' alert fired. -/
structure RunOutput where
  store : Store
  networkCalls : Nat
  alertedNothing : Bool
  deriving DecidableEq, Repr

/-- `analyzeAllImages`: select pending/error items; alert and stop when the
selection is empty; otherwise run the chunk loop, and on an exception apply
the catch handler to the store. -/
def analyzeAllImages (env : Nat → ChunkEvent) (st : Store) : RunOutput :=
  let sel := st.items.filter eligible
  if sel.isEmpty then ⟨st, 0, true⟩
  else
    let r := runChunks env (selChunks sel) 0 st
    match r.2.1 with
    | none => ⟨r.1, r.2.2, false⟩
    | some m => ⟨{ r.1 with items := markAborted m r.1.items }, r.2.2, false⟩

/-! ### Image preprocessor (`compressImageDataUrl`) -/

/-- Default `maxDimension` parameter of `compressImageDataUrl`. -/
def maxDimension : ℚ := 1600

/-- `Math.min(1, maxDimension / Math.max(width, height))`.  In JS a zero
denominator yields `Infinity` and the `min` is `1`; over `ℚ` that case is
written out explicitly. -/
def compressScale (w h : Nat) : ℚ :=
  if max w h = 0 then 1 else min 1 (maxDimension / ((max w h : Nat) : ℚ))

/-- JS `Math.round`: round half toward positive infinity. -/
def jsRound (q : ℚ) : ℤ := ⌊q + 1 / 2⌋

/-- What the image decode step reports: natural dimensions, or a decode
failure (the `img.onerror` path). -/
inductive DecodeOutcome
  | ok (w h : Nat)
  | failed
  deriving DecidableEq, Repr

/-- What `compressImageDataUrl` resolves with: a JPEG re-encode at the scaled
canvas dimensions, or the original data URI unchanged. -/
inductive CompressOutcome
  | compressed (w h : ℤ) (quality : ℚ)
  | original (dataUrl : String)
  deriving DecidableEq, Repr

/-- `compressImageDataUrl`: on decode success, render at
`Math.round(width * scale) × Math.round(height * scale)` and export JPEG at
quality 0.75; on decode failure resolve with the original data URI. -/
def compressImageDataUrl (dataUrl : String) (dec : DecodeOutcome) : CompressOutcome :=
  match dec with
  | .ok w h =>
      .compressed (jsRound (w * compressScale w h)) (jsRound (h * compressScale w h)) (3 / 4)
  | .failed => .original dataUrl

/-! ### Video frame extractor (`extractFramesFromVideo`) -/

/-- `const interval = video.duration / (numFrames + 1)`. -/
def frameInterval (d : ℚ) (numFrames : Nat) : ℚ := d / (numFrames + 1)

/-- The timestamps `interval * i` attempted by the capture loop
`for (let i = 1; i <= numFrames; i++)`, in loop order. -/
def attemptTimes (d : ℚ) (numFrames : Nat) : List ℚ :=
  (List.range numFrames).map fun k : Nat => frameInterval d numFrames * ((k : ℚ) + 1)

/-- The timestamps actually captured: the loop guards each capture with
`if (time < video.duration)` and pushes frames in loop order. -/
def capturedFrames (d : ℚ) (numFrames : Nat) : List ℚ :=
  (attemptTimes d numFrames).filter fun t => decide (t < d)

/-- Environment of one `extractFramesFromVideo` call: whether
`canvas.getContext('2d')` succeeds, the duration as resolved after the
forced-seek workaround (`none` when it stays 0/NaN/Infinity), whether the
video element fires `onerror`, and the capture index at which
`drawImage`/`toDataURL` throws, if any. -/
structure VideoEnv where
  ctxAvailable : Bool
  duration : Option ℚ
  loadFails : Bool
  captureFailAt : Option Nat
  deriving DecidableEq, Repr

/-- How the extraction promise settles. -/
inductive ExtractOutcome
  | resolved (frames : List ℚ)
  | rejected (msg : String)
  deriving DecidableEq, Repr

/-- One settled `extractFramesFromVideo` run: how the promise settled and
whether `URL.revokeObjectURL` ran on the object URL created at entry before
it settled. -/
structure ExtractRun where
  outcome : ExtractOutcome
  urlRevoked : Bool
  deriving DecidableEq, Repr

/-- `extractFramesFromVideo`, path by path.  The object URL is created first;
the `!ctx` guard rejects immediately (without touching the URL); `onerror`
revokes then rejects; an unresolved duration revokes then rejects; a capture
exception revokes then rejects; full success revokes then resolves the
captured frame list. -/
def extractFramesFromVideo (env : VideoEnv) (numFrames : Nat) : ExtractRun :=
  if env.ctxAvailable = false then
    ⟨.rejected "Could not get canvas context", false⟩
  else if env.loadFails then
    ⟨.rejected "Error loading video file. It may be corrupt or in an unsupported format.", true⟩
  else
    match env.duration with
    | none =>
        ⟨.rejected
          "Could not determine video duration. The file may be corrupt or in an unsupported format.",
         true⟩
    | some d =>
        match env.captureFailAt with
        | some j =>
            if j < (capturedFrames d numFrames).length then
              ⟨.rejected "capture failed", true⟩
            else ⟨.resolved (capturedFrames d numFrames), true⟩
        | none => ⟨.resolved (capturedFrames d numFrames), true⟩

/-! ### Shared CSV download utility (`downloadCSV`) -/

/-- The record shape `downloadCSV` reads from each grouped result (only the
fields its row construction touches). -/
structure CsvRec where
  success : Bool
  title : Option String
  keywords : Option (List String)
  result : Option String
  category : Option String
  deriving DecidableEq, Repr

/-- `escapeCSV`: `String(val).replace(/\n/g, ' ').replace(/"/g, '""')` —
every newline becomes a space, then every double quote is doubled.  The two
global single-character regex replaces are embedded at the character level. -/
def escapeCSV (s : String) : String :=
  ⟨(s.data.map fun c => if c = '\n' then ' ' else c).flatMap fun c =>
      if c = '"' then ['"', '"'] else [c]⟩

/-- The Title scalar of a row: `preferred?.title ?? ''`, falling back to the
first non-blank trimmed line of the raw result or the group name, then
`title.slice(0, 200)`. -/
def csvTitle (name : String) (preferred : CsvRec) : String :=
  let t := preferred.title.getD ""
  let t :=
    if t = "" then
      (((((preferred.result.getD "").splitOn "\n").map String.trim).filter
          fun s => s != "").headD name)
    else t
  t.take 200

/-- The keyword array of a row: `preferred.keywords` when it is an array,
otherwise (when empty and a truthy raw result exists) the comma-split trimmed
non-blank pieces of the raw result. -/
def csvKeywordsArr (preferred : CsvRec) : List String :=
  let arr := preferred.keywords.getD []
  match preferred.result with
  | some raw =>
      if arr.isEmpty ∧ raw ≠ "" then
        ((raw.splitOn ",").map String.trim).filter fun s => s != ""
      else arr
  | none => arr

/-- The Keywords scalar of a row: `keywordsArr.slice(0, 49).join(', ')`. -/
def csvKeywords (preferred : CsvRec) : String :=
  String.intercalate ", " ((csvKeywordsArr preferred).take 49)

/-- The Category scalar: `preferred?.category ? getCategoryNumber(...) : '3'`
(`getCategoryNumber` is imported from `categoryUtils` and passed in here). -/
def csvCategory (catNum : String → String) (preferred : CsvRec) : String :=
  match preferred.category with
  | some c => if c = "" then "3" else catNum c
  | none => "3"

/-- The five emitted row fields, each passed through `escapeCSV`, in the
column order Filename, Title, Keywords, Category, Releases (always ''). -/
def csvFields (catNum : String → String) (name : String) (preferred : CsvRec) :
    List String :=
  [escapeCSV name, escapeCSV (csvTitle name preferred), escapeCSV (csvKeywords preferred),
   escapeCSV (csvCategory catNum preferred), escapeCSV ""]

/-- The emitted CSV line: each field wrapped in double quotes and joined with
commas. -/
def csvLine (catNum : String → String) (name : String) (preferred : CsvRec) : String :=
  String.intercalate "," ((csvFields catNum name preferred).map fun f => "\"" ++ f ++ "\"")

/-! ### Concrete fixtures used by counterexamples and witnesses -/

/-- A sample structured result. -/
def res0 : Res := ⟨"Sunset", ["sky", "dusk"], "Landscapes", "none", "raw"⟩

/-- A pending item. -/
def itemPend : Item := ⟨1, "q.jpg", .pending, none, none⟩

/-- An item already in flight before any batch run starts. -/
def itemProc : Item := ⟨0, "p.jpg", .processing, none, none⟩

/-- A completed item carrying a result. -/
def staleItem : Item := ⟨3, "d.jpg", .completed, some res0, none⟩

/-- A fresh pending item with empty result and error. -/
def freshItem : Item := ⟨9, "w.jpg", .pending, none, none⟩

/-- A batch environment whose every request succeeds with a result for
`q.jpg`. -/
def envOkQ : Nat → ChunkEvent :=
  fun _ => .resp (.ok [("q.jpg", [.success res0])])

/-- A store with one completed and one in-flight item: no eligible work. -/
def stEmptySel : Store := ⟨[staleItem, itemProc], []⟩

/-- A store with no in-flight item. -/
def stClean : Store := ⟨[itemPend, staleItem], []⟩

/-- A store holding an item already `processing` next to a pending one. -/
def stStranded : Store := ⟨[itemProc, itemPend], []⟩

/-! ### C3 — shared store merge appends rather than replacing by id -/

/-- Claim C3: merging a record whose id already exists in the shared results
list should leave exactly one record with that id.  The source merge is an
append, so the duplicate id survives: merging the same record for id 7 into a
store already holding it leaves two records with id 7. -/
theorem merge_same_id_duplicates :
    ((mergeResults [⟨7, "a.jpg", .success res0⟩] [⟨7, "a.jpg", .success res0⟩]).countP
        fun r => r.id == 7) = 2 := by
  decide

/-! ### C9 — object URL release on every exit path -/

/-- Claim C9: on the exit path where `canvas.getContext('2d')` returns null,
`extractFramesFromVideo` rejects before ever calling `revokeObjectURL`, so the
object URL created at entry leaks; on every other settled path the URL is
revoked first. -/
theorem extract_ctx_fail_leaks_url :
    extractFramesFromVideo ⟨false, some 10, false, none⟩ 8 =
      ⟨.rejected "Could not get canvas context", false⟩ ∧
    (extractFramesFromVideo ⟨true, none, false, none⟩ 8).urlRevoked = true ∧
    (extractFramesFromVideo ⟨true, some 10, true, none⟩ 8).urlRevoked = true ∧
    (extractFramesFromVideo ⟨true, some 10, false, some 0⟩ 8).urlRevoked = true ∧
    (extractFramesFromVideo ⟨true, some 10, false, none⟩ 8).urlRevoked = true := by
  refine ⟨rfl, rfl, rfl, ?_, rfl⟩
  show (if 0 < (capturedFrames 10 8).length then
      (⟨.rejected "capture failed", true⟩ : ExtractRun)
    else ⟨.resolved (capturedFrames 10 8), true⟩).urlRevoked = true
  split <;> rfl

/-! ### C6 — result/error field discipline along the lifecycle -/

/-- Claim C6 counterexample: the code's transition to `processing`
(`{ ...img, status: 'processing', error: null }`) does not clear `result`, and
the transition to `error` does not clear it either.  Applied to a completed
item carrying a result, the claim's "result is null while processing" and
"transition to error clears result" both fail. -/
theorem processing_keeps_stale_result_cex :
    (toProcessing staleItem).status = .processing ∧
    (toProcessing staleItem).result = some res0 ∧
    (toError "boom" staleItem).status = .error ∧
    (toError "boom" staleItem).result = some res0 := by
  decide

/-- Claim C6 (amended): the transition to `processing` clears only the error
field and preserves `result`; the transition to `error` sets the message and
preserves `result`.  Consequently, for an item whose `result` is empty when it
enters `processing`, exactly one of result/error is populated after the
completed/error transitions and both are empty while processing. -/
theorem item_transition_field_discipline :
    (∀ img : Item, (toProcessing img).error = none ∧
      (toProcessing img).result = img.result ∧ (toProcessing img).status = .processing)
    ∧ (∀ (img : Item) (e : String),
        (toError e img).error = some e ∧ (toError e img).result = img.result)
    ∧ (∀ img : Item, img.result = none →
        ((toProcessing img).result = none ∧ (toProcessing img).error = none)
        ∧ (∀ r, (toCompleted r (toProcessing img)).result = some r ∧
            (toCompleted r (toProcessing img)).error = none ∧
            (toCompleted r (toProcessing img)).status = .completed)
        ∧ (∀ e, (toError e (toProcessing img)).result = none ∧
            (toError e (toProcessing img)).error = some e ∧
            (toError e (toProcessing img)).status = .error)) := by
  refine ⟨fun img => ⟨rfl, rfl, rfl⟩, fun img e => ⟨rfl, rfl⟩, fun img h => ⟨⟨h, rfl⟩, ?_, ?_⟩⟩
  · exact fun r => ⟨rfl, rfl, rfl⟩
  · exact fun e => ⟨h, rfl, rfl⟩

/-- Witness for the amended C6 theorem at a concrete fresh pending item. -/
theorem item_transition_field_discipline_witness :
    (toProcessing freshItem).result = none ∧
    (toError "x" (toProcessing freshItem)).result = none :=
  ⟨(item_transition_field_discipline.2.2 freshItem rfl).1.1,
   ((item_transition_field_discipline.2.2 freshItem rfl).2.2 "x").1⟩

/-! ### C7 — the image preprocessor never upscales -/

/-- `Math.round` of a whole number is itself. -/
theorem jsRound_natCast (n : Nat) : jsRound (n : ℚ) = n := by
  unfold jsRound
  rw [show ((n : ℚ)) = (((n : ℤ) : ℚ)) by push_cast; ring, Int.floor_int_add]
  norm_num

/-- Claim C7: when the larger input dimension is at most 1600 the scale factor
is 1 and the output dimensions equal the input dimensions; the scale factor
never exceeds 1 for any input; and a decode failure resolves with the original
data URI unchanged. -/
theorem compress_never_upscales :
    (∀ w h : Nat, max w h ≤ 1600 →
        compressScale w h = 1 ∧
        ∀ url, compressImageDataUrl url (.ok w h) = .compressed w h (3 / 4))
    ∧ (∀ w h : Nat, compressScale w h ≤ 1)
    ∧ (∀ url, compressImageDataUrl url .failed = .original url) := by
  refine ⟨fun w h hle => ?_, fun w h => ?_, fun url => rfl⟩
  · have hsc : compressScale w h = 1 := by
      rw [compressScale]
      by_cases h0 : max w h = 0
      · rw [if_pos h0]
      · have hpos : (0 : ℚ) < ((max w h : Nat) : ℚ) := by
          exact_mod_cast Nat.pos_of_ne_zero h0
        have h1 : (1 : ℚ) ≤ maxDimension / ((max w h : Nat) : ℚ) := by
          rw [one_le_div hpos]
          rw [maxDimension]
          exact_mod_cast hle
        rw [if_neg h0, min_eq_left h1]
    refine ⟨hsc, fun url => ?_⟩
    show CompressOutcome.compressed (jsRound (w * compressScale w h))
        (jsRound (h * compressScale w h)) (3 / 4) = _
    rw [hsc, mul_one, mul_one, jsRound_natCast, jsRound_natCast]
  · rw [compressScale]
    by_cases h0 : max w h = 0
    · rw [if_pos h0]
    · rw [if_neg h0]
      exact min_le_left _ _

/-- Witness for C7 at a concrete 800×600 decode. -/
theorem compress_never_upscales_witness :
    compressImageDataUrl "u" (.ok 800 600) = .compressed 800 600 (3 / 4) :=
  (compress_never_upscales.1 800 600 (by norm_num)).2 "u"

/-! ### C2 — chunk partition shape and progress numbering -/

/-- Peeling the last loop index off `chunkStarts`. -/
theorem chunkStarts_succ (n : Nat) :
    chunkStarts (n + 1) = chunkStarts n ++ (if n % 2 = 0 then [n] else []) := by
  rw [chunkStarts, chunkStarts, List.range_succ, List.filter_append]
  congr 1
  simp [List.filter_singleton, chunkSize, beq_iff_eq]

/-- The loop indices are exactly `2 * k` for `k < ⌈n / 2⌉`. -/
theorem chunkStarts_eq (n : Nat) :
    chunkStarts n = (List.range ((n + 1) / 2)).map fun k => 2 * k := by
  induction n with
  | zero => rfl
  | succ n ih =>
    rw [chunkStarts_succ, ih]
    by_cases h : n % 2 = 0
    · have h2 : (n + 1 + 1) / 2 = (n + 1) / 2 + 1 := by omega
      have h3 : 2 * ((n + 1) / 2) = n := by omega
      rw [if_pos h, h2, List.range_succ, List.map_append]
      simp [h3]
    · have h2 : (n + 1 + 1) / 2 = (n + 1) / 2 := by omega
      rw [if_neg h, h2, List.append_nil]

/-- Concatenating the slices `sel.slice(2k, 2k + 2)` in loop order rebuilds
the selection. -/
theorem flatten_chunks_aux (M : Nat) :
    ∀ sel : List Item, (sel.length + 1) / 2 = M →
      (((List.range M).map fun k => (sel.drop (2 * k)).take 2).flatten) = sel := by
  induction M with
  | zero =>
    intro sel h
    have hlen : sel.length = 0 := by omega
    rw [List.eq_nil_of_length_eq_zero hlen]
    rfl
  | succ M ih =>
    intro sel h
    rw [List.range_succ_eq_map, List.map_cons, List.map_map, List.flatten_cons]
    have hmap : (List.range M).map ((fun k => (sel.drop (2 * k)).take 2) ∘ Nat.succ)
        = (List.range M).map fun k => (((sel.drop 2).drop (2 * k)).take 2) := by
      apply List.map_congr_left
      intro k _
      simp only [Function.comp]
      rw [List.drop_drop]
      congr 2
      omega
    rw [hmap, ih (sel.drop 2) (by rw [List.length_drop]; omega)]
    rw [Nat.mul_zero, List.drop_zero]
    exact List.take_append_drop 2 sel

/-- Claim C2: with the fixed chunk size 2, the scheduler's chunk list has
`⌈N / 2⌉ = (N + 1) / 2` chunks, concatenating the chunks in order reproduces
the selection, and the `currentChunk` progress values are `1, 2, ..., ⌈N / 2⌉`
in order. -/
theorem chunk_partition_exact (sel : List Item) :
    (selChunks sel).length = (sel.length + 1) / 2 ∧
    (selChunks sel).flatten = sel ∧
    chunkNumbers sel.length = (List.range ((sel.length + 1) / 2)).map (· + 1) := by
  refine ⟨?_, ?_, ?_⟩
  · rw [selChunks, chunkStarts_eq]
    simp
  · rw [selChunks, chunkStarts_eq, List.map_map]
    have hmap : (List.range ((sel.length + 1) / 2)).map
          ((fun i => (sel.drop i).take chunkSize) ∘ fun k => 2 * k)
        = (List.range ((sel.length + 1) / 2)).map fun k => (sel.drop (2 * k)).take 2 := by
      apply List.map_congr_left
      intro k _
      rfl
    rw [hmap]
    exact flatten_chunks_aux _ sel rfl
  · rw [chunkNumbers, chunkStarts_eq, List.map_map]
    apply List.map_congr_left
    intro k _
    simp only [Function.comp, chunkSize]
    omega

/-! ### C8 — frame timestamps of the video extractor -/

/-- The capture loop attempts exactly `numFrames` timestamps. -/
theorem attemptTimes_length (d : ℚ) (n : Nat) : (attemptTimes d n).length = n := by
  rw [attemptTimes]
  simp

/-- With a positive finite duration every attempted timestamp passes the
`time < duration` guard, so every frame is captured. -/
theorem capturedFrames_of_pos (d : ℚ) (n : Nat) (hd : 0 < d) :
    capturedFrames d n = attemptTimes d n := by
  rw [capturedFrames, List.filter_eq_self]
  intro t ht
  rw [attemptTimes, List.mem_map] at ht
  obtain ⟨k, hk, rfl⟩ := ht
  rw [List.mem_range] at hk
  rw [decide_eq_true_eq]
  have hn : (0 : ℚ) < (n : ℚ) + 1 := by positivity
  have hfi : 0 < frameInterval d n := div_pos hd hn
  have hk1 : ((k : ℚ) + 1) < (n : ℚ) + 1 := by exact_mod_cast Nat.succ_lt_succ hk
  calc frameInterval d n * ((k : ℚ) + 1)
      < frameInterval d n * ((n : ℚ) + 1) := mul_lt_mul_of_pos_left hk1 hfi
    _ = d := by rw [frameInterval]; field_simp

/-- Claim C8: for a resolved finite duration `d > 0` the extractor captures
exactly the timestamps `d * i / (numFrames + 1)` for `i = 1..numFrames`, in
increasing order of `i`, with all `numFrames` frames present, and the list is
strictly increasing. -/
theorem frame_sampling_exact (d : ℚ) (n : Nat) (hd : 0 < d) :
    capturedFrames d n = (List.range n).map (fun k : Nat => d * ((k : ℚ) + 1) / ((n : ℚ) + 1)) ∧
    (capturedFrames d n).length = n ∧
    (capturedFrames d n).Chain' (· < ·) := by
  have he : capturedFrames d n = attemptTimes d n := capturedFrames_of_pos d n hd
  have heq : attemptTimes d n
      = (List.range n).map fun k : Nat => d * ((k : ℚ) + 1) / ((n : ℚ) + 1) := by
    rw [attemptTimes]
    apply List.map_congr_left
    intro k _
    rw [frameInterval]
    ring
  have hn : (0 : ℚ) < (n : ℚ) + 1 := by positivity
  refine ⟨he.trans heq, ?_, ?_⟩
  · rw [he, attemptTimes_length]
  · rw [he, heq]
    apply List.Pairwise.chain'
    rw [List.pairwise_map]
    refine (List.pairwise_lt_range n).imp fun {a b} hab => ?_
    rw [div_lt_div_iff_of_pos_right hn]
    have : ((a : ℚ) + 1) < ((b : ℚ) + 1) := by exact_mod_cast Nat.succ_lt_succ hab
    exact mul_lt_mul_of_pos_left this hd

/-- Witness for C8 at duration 10 and the default frame count 8. -/
theorem frame_sampling_exact_witness :
    ((0 : ℚ) < 10) ∧ (capturedFrames 10 8).length = 8 :=
  ⟨by norm_num, (frame_sampling_exact 10 8 (by norm_num)).2.1⟩

/-! ### C10 — CSV field truncation and escaping -/

/-- `slice(0, n)` of a string has at most `n` characters. -/
theorem string_take_length_le (s : String) (n : Nat) : (s.take n).length ≤ n := by
  rw [String.take_eq]
  exact List.length_take_le n s.data

/-- No newline survives the character pipeline of `escapeCSV`, and every
double quote is doubled. -/
theorem escape_pipeline_counts (l : List Char) :
    ((l.map fun c => if c = '\n' then ' ' else c).flatMap fun c =>
        if c = '"' then ['"', '"'] else [c]).count '\n' = 0 ∧
    ((l.map fun c => if c = '\n' then ' ' else c).flatMap fun c =>
        if c = '"' then ['"', '"'] else [c]).count '"' = 2 * l.count '"' := by
  induction l with
  | nil => exact ⟨rfl, rfl⟩
  | cons c t ih =>
    rw [List.map_cons, List.flatMap_cons]
    by_cases h1 : c = '\n'
    · subst h1
      simp [List.count_append, List.count_cons, ih.1, ih.2]
    · by_cases h2 : c = '"'
      · subst h2
        refine ⟨?_, ?_⟩ <;>
          simp [List.count_append, List.count_cons, ih.1, ih.2, Nat.mul_add]
      · simp [List.count_append, List.count_cons, ih.1, ih.2, h1, h2]

/-- Claim C10: the emitted Title field is the escape of the 200-character
truncation, the emitted Keywords field is built from at most the first 49
keyword entries, every field passes through `escapeCSV`, and `escapeCSV`
removes every newline and doubles every double quote. -/
theorem csv_row_truncation (catNum : String → String) (name : String) (preferred : CsvRec) :
    (csvTitle name preferred).length ≤ 200 ∧
    ((csvKeywordsArr preferred).take 49).length ≤ 49 ∧
    csvFields catNum name preferred =
      [name, csvTitle name preferred,
       String.intercalate ", " ((csvKeywordsArr preferred).take 49),
       csvCategory catNum preferred, ""].map escapeCSV ∧
    (∀ s : String, (escapeCSV s).data.count '\n' = 0 ∧
      (escapeCSV s).data.count '"' = 2 * s.data.count '"') := by
  refine ⟨string_take_length_le _ 200, List.length_take_le 49 _, rfl, fun s => ?_⟩
  exact escape_pipeline_counts s.data

/-! ### C4 — missing or empty outcomes become 'No results received' -/

/-- Claim C4: a batch item whose display name is absent from the success
response's results map (or maps to an empty array) transitions to `error`
with 'No results received', and a single-item response with a missing or
empty results array does the same; neither leaves the item `processing`. -/
theorem no_results_received_policy :
    (∀ (results : List (String × List ROutcome)) (img : Item),
        (results.lookup img.name = none ∨ results.lookup img.name = some []) →
        (chunkItemUpdate results img).status = .error ∧
        (chunkItemUpdate results img).error = some "No results received")
    ∧ (∀ (resp : Option (List ROutcome)) (img : Item),
        (resp = none ∨ resp = some []) →
        analyzeImageOutcome resp img = toError "No results received" img ∧
        (analyzeImageOutcome resp img).status = .error) := by
  constructor
  · intro results img h
    rcases h with h | h <;> simp [chunkItemUpdate, h]
  · intro resp img h
    rcases h with h | h <;> subst h <;> exact ⟨rfl, rfl⟩

/-- Witness for C4 at an empty results map / absent results array. -/
theorem no_results_received_policy_witness :
    (chunkItemUpdate [] itemPend).error = some "No results received" ∧
    analyzeImageOutcome none itemPend = toError "No results received" itemPend :=
  ⟨(no_results_received_policy.1 [] itemPend (Or.inl rfl)).2,
   (no_results_received_policy.2 none itemPend (Or.inl rfl)).1⟩

/-! ### C5 — selection policy and the empty-selection boundary -/

/-- Claim C5: the scheduler selects exactly the `pending` and `error` items,
and an empty selection performs zero network calls, leaves the store
untouched, and raises the nothing-to-analyze alert. -/
theorem batch_selection_policy :
    (∀ img : Item, eligible img = true ↔ (img.status = .pending ∨ img.status = .error))
    ∧ (∀ (env : Nat → ChunkEvent) (st : Store),
        st.items.filter eligible = [] → analyzeAllImages env st = ⟨st, 0, true⟩) := by
  constructor
  · intro img
    cases h : img.status <;> simp [eligible, h]
  · intro env st h
    simp [analyzeAllImages, h]

/-- Witness for C5 at a store whose items are completed or in flight. -/
theorem batch_selection_policy_witness :
    analyzeAllImages envOkQ stEmptySel = ⟨stEmptySel, 0, true⟩ ∧
    (eligible itemPend = true ↔ (itemPend.status = .pending ∨ itemPend.status = .error)) :=
  ⟨batch_selection_policy.2 envOkQ stEmptySel (by decide),
   batch_selection_policy.1 itemPend⟩

/-! ### C1 — no item is left `processing` by a batch run -/

/-- The per-item batch update always lands in `completed` or `error`. -/
theorem chunkItemUpdate_status (results : List (String × List ROutcome)) (img : Item) :
    (chunkItemUpdate results img).status = .completed ∨
    (chunkItemUpdate results img).status = .error := by
  rcases h : results.lookup img.name with _ | l
  · right; simp [chunkItemUpdate, h]
  · rcases l with _ | ⟨x, t⟩
    · right; simp [chunkItemUpdate, h]
    · rcases x with r | e
      · left; simp [chunkItemUpdate, h]
      · right; simp [chunkItemUpdate, h]

/-- The per-item batch update preserves the item id. -/
theorem chunkItemUpdate_id (results : List (String × List ROutcome)) (img : Item) :
    (chunkItemUpdate results img).id = img.id := by
  rcases h : results.lookup img.name with _ | l
  · simp [chunkItemUpdate, h]
  · rcases l with _ | ⟨x, t⟩
    · simp [chunkItemUpdate, h]
    · rcases x with r | e <;> simp [chunkItemUpdate, h]

/-- Each element of `applyUpdated upd store` is either taken from `upd`, or
is an element of `store` whose id matches nothing in `upd`. -/
theorem applyUpdated_mem (upd store : List Item) :
    ∀ img ∈ applyUpdated upd store,
      img ∈ upd ∨ (img ∈ store ∧ ∀ u ∈ upd, u.id ≠ img.id) := by
  intro img h
  rw [applyUpdated, List.mem_map] at h
  obtain ⟨x, hx, rfl⟩ := h
  rcases hfind : upd.find? (fun u => u.id == x.id) with _ | u
  · right
    rw [hfind, Option.getD_none]
    refine ⟨hx, fun u hu => ?_⟩
    have := List.find?_eq_none.mp hfind u hu
    simpa using this
  · left
    rw [hfind, Option.getD_some]
    exact List.mem_of_find?_eq_some hfind

/-- Each element of `setChunkProcessing chunk store` is either an untouched
store element matching no chunk id, or the processing-marked copy of a store
element matching some chunk id. -/
theorem setChunkProcessing_mem (chunk store : List Item) :
    ∀ img ∈ setChunkProcessing chunk store,
      (img ∈ store ∧ ¬((chunk.any fun c => c.id == img.id) = true)) ∨
      (∃ img0 ∈ store, img = { img0 with status := .processing, error := none } ∧
        (chunk.any fun c => c.id == img0.id) = true) := by
  intro img h
  rw [setChunkProcessing, List.mem_map] at h
  obtain ⟨x, hx, rfl⟩ := h
  by_cases hc : (chunk.any fun c => c.id == x.id) = true
  · right
    exact ⟨x, hx, by rw [if_pos hc], hc⟩
  · left
    rw [if_neg hc]
    exact ⟨hx, hc⟩

/-- A response event (of either shape) never throws from `processImageChunk`. -/
theorem processImageChunk_resp_snd (chunk : List Item) (r : BatchResp) (st : Store) :
    (processImageChunk chunk (.resp r) st).2 = none := by
  rcases r with results | e <;> rfl

/-- After `processImageChunk` consumes a parsed response — well-formed or
failed — no item of the resulting store is `processing`, provided none was
before the chunk started. -/
theorem processChunk_resp_no_processing (chunk : List Item) (r : BatchResp) (st : Store)
    (hP : ∀ img ∈ st.items, img.status ≠ .processing) :
    ∀ img ∈ (processImageChunk chunk (.resp r) st).1.items, img.status ≠ .processing := by
  rcases r with results | e
  · have hshape : (processImageChunk chunk (.resp (.ok results)) st).1.items
        = applyUpdated (chunk.map (chunkItemUpdate results))
            (setChunkProcessing chunk st.items) := rfl
    rw [hshape]
    intro img hmem
    rcases applyUpdated_mem _ _ img hmem with hupd | ⟨hst1, hnoid⟩
    · rw [List.mem_map] at hupd
      obtain ⟨c, _, rfl⟩ := hupd
      rcases chunkItemUpdate_status results c with h | h <;> rw [h] <;> intro hcon <;>
        cases hcon
    · rcases setChunkProcessing_mem chunk st.items img hst1 with ⟨horig, _⟩ | hmark
      · exact hP img horig
      · obtain ⟨img0, hmem0, hform, hany⟩ := hmark
        rw [List.any_eq_true] at hany
        obtain ⟨c, hc, hcid⟩ := hany
        exfalso
        refine hnoid (chunkItemUpdate results c) (List.mem_map_of_mem _ hc) ?_
        rw [chunkItemUpdate_id]
        have : c.id = img0.id := by simpa using hcid
        rw [this, hform]
  · have hshape : (processImageChunk chunk (.resp (.failed e)) st).1.items
        = applyChunkFail e chunk (setChunkProcessing chunk st.items) := rfl
    rw [hshape]
    intro img hmem
    rw [applyChunkFail, List.mem_map] at hmem
    obtain ⟨y, hy, rfl⟩ := hmem
    by_cases hcond : ((chunk.any fun c => c.id == y.id) = true) ∧ y.status = .processing
    · rw [if_pos hcond]
      intro hcon
      cases hcon
    · rw [if_neg hcond]
      rcases setChunkProcessing_mem chunk st.items y hy with ⟨horig, _⟩ | hmark
      · exact hP y horig
      · obtain ⟨img0, hmem0, hform, hany⟩ := hmark
        exfalso
        apply hcond
        constructor
        · have hid : y.id = img0.id := by rw [hform]
          rw [hid]
          exact hany
        · rw [hform]

/-- Unfolding one loop iteration whose event is a parsed response. -/
theorem runChunks_cons_resp (env : Nat → ChunkEvent) (chunk : List Item)
    (rest : List (List Item)) (k : Nat) (st : Store) (r : BatchResp)
    (h : env k = .resp r) :
    runChunks env (chunk :: rest) k st =
      ((runChunks env rest (k + 1) (processImageChunk chunk (.resp r) st).1).1,
       (runChunks env rest (k + 1) (processImageChunk chunk (.resp r) st).1).2.1,
       (runChunks env rest (k + 1) (processImageChunk chunk (.resp r) st).1).2.2 + 1) := by
  rw [runChunks, h]
  rcases r with results | e <;> rfl

/-- Unfolding one loop iteration whose event is a thrown exception. -/
theorem runChunks_cons_exn (env : Nat → ChunkEvent) (chunk : List Item)
    (rest : List (List Item)) (k : Nat) (st : Store) (m : String)
    (h : env k = .exn m) :
    runChunks env (chunk :: rest) k st =
      ((processImageChunk chunk (.exn m) st).1, some m, 1) := by
  rw [runChunks, h]
  rfl

/-- A chunk loop that runs to completion without throwing leaves no item
`processing`, provided none was `processing` at entry. -/
theorem runChunks_no_processing (env : Nat → ChunkEvent) :
    ∀ (chunks : List (List Item)) (k : Nat) (st : Store),
      (∀ img ∈ st.items, img.status ≠ .processing) →
      (runChunks env chunks k st).2.1 = none →
      ∀ img ∈ (runChunks env chunks k st).1.items, img.status ≠ .processing := by
  intro chunks
  induction chunks with
  | nil =>
    intro k st hP _
    exact hP
  | cons chunk rest ih =>
    intro k st hP hnone
    rcases hev : env k with r | m
    · rw [runChunks_cons_resp env chunk rest k st r hev] at hnone ⊢
      exact ih (k + 1) _ (processChunk_resp_no_processing chunk r st hP) hnone
    · rw [runChunks_cons_exn env chunk rest k st m hev] at hnone
      cases hnone

/-- The catch handler leaves no item `processing`, unconditionally. -/
theorem markAborted_no_processing (m : String) (items : List Item) :
    ∀ img ∈ markAborted m items, img.status ≠ .processing := by
  intro img h
  rw [markAborted, List.mem_map] at h
  obtain ⟨x, hx, rfl⟩ := h
  rw [markAbortedItem]
  by_cases hs : x.status = .processing
  · rw [if_pos hs]
    intro hcon
    cases hcon
  · rw [if_neg hs]
    exact hs

/-- Claim C1 (amended): provided no item is already `processing` when the run
starts, a completed `analyzeAllImages` run — normal or aborted — leaves no
item in status `processing`; and the catch handler turns any item still
`processing` at the abort into `error` carrying the exception's message. -/
theorem batch_run_resolves_processing :
    (∀ (env : Nat → ChunkEvent) (st : Store),
        (∀ img ∈ st.items, img.status ≠ .processing) →
        ∀ img ∈ (analyzeAllImages env st).store.items, img.status ≠ .processing)
    ∧ (∀ (m : String) (img : Item), img.status = .processing →
        (markAbortedItem m img).status = .error ∧ (markAbortedItem m img).error = some m) := by
  constructor
  · intro env st hP img hmem
    simp only [analyzeAllImages] at hmem
    by_cases hsel : (st.items.filter eligible).isEmpty = true
    · rw [if_pos hsel] at hmem
      exact hP img hmem
    · rw [if_neg hsel] at hmem
      rcases hexn : (runChunks env (selChunks (st.items.filter eligible)) 0 st).2.1 with _ | m
      · rw [hexn] at hmem
        exact runChunks_no_processing env _ 0 st hP hexn img hmem
      · rw [hexn] at hmem
        exact markAborted_no_processing m _ img hmem
  · intro m img h
    rw [markAbortedItem, if_pos h]
    exact ⟨rfl, rfl⟩

/-- Claim C1 counterexample: with an item already `processing` before the run
and a batch that completes normally, the run finishes with that item still
`processing` — the unamended claim fails. -/
theorem processing_item_survives_run_cex :
    ((analyzeAllImages envOkQ stStranded).store.items.filter
        fun img => img.status == .processing) = [itemProc] ∧
    (analyzeAllImages envOkQ stStranded).alertedNothing = false := by
  constructor <;> rfl

/-- Witness for the amended C1 theorem on a clean store and an all-success
environment. -/
theorem batch_run_resolves_processing_witness :
    ((analyzeAllImages envOkQ stClean).store.items.filter
        fun img => img.status == .processing) = [] ∧
    (markAbortedItem "boom" itemProc).error = some "boom" := by
  constructor
  · rw [List.filter_eq_nil_iff]
    intro a ha
    have h := batch_run_resolves_processing.1 envOkQ stClean (by decide) a ha
    simpa using h
  · exact (batch_run_resolves_processing.2 "boom" itemProc rfl).2

end StockKG
